import Mathlib

/-!
Shallow embedding of the `SymbolScanner` core from `src/server.js` and
`src/unnamed/part_000` (the two files share the scanner verbatim; `part_000`
additionally performs a supplementary snapshot read in `processMinute`).

Modelling choices:
* JS `Map` becomes an association list `List (String × α)` in insertion order;
  `Map.get` is first-match lookup, `Map.set` updates in place or appends.
* JS numbers become exact rationals `ℚ` (prices, volumes, scores) and
  timestamps become `Int` milliseconds.
* Network fetches are modelled by passing the fetch outcome as a parameter:
  `none` is a failed request (the `catch` branch), `some list` a parsed
  response body, already filtered down to the fields the code reads.
* `Math.round x` is `⌊x + 1/2⌋`; `toFixed n` is modelled by the rational it
  denotes, rounding at `n` decimal digits.
-/

namespace VercelScanner

/-- First-match lookup in an association list: JS `Map.prototype.get`. -/
def mapGet {α : Type} : List (String × α) → String → Option α
  | [], _ => none
  | p :: rest, k => if p.1 = k then some p.2 else mapGet rest k

/-- Update-in-place-or-append: JS `Map.prototype.set`. -/
def mapSet {α : Type} : List (String × α) → String → α → List (String × α)
  | [], k, v => [(k, v)]
  | p :: rest, k, v => if p.1 = k then (k, v) :: rest else p :: mapSet rest k v

/-- One price observation: `{price, timestamp}` pushed by `fetchTickers`. -/
structure PriceSample where
  price : ℚ
  timestamp : Int
deriving DecidableEq

/-- One entry of the market snapshot, with `parseFloat` already applied to the
string fields the code reads (`lastPrice`, `turnover24h`, `fundingRate`). -/
structure Ticker where
  symbol : String
  lastPrice : ℚ
  turnover24h : ℚ
  fundingRate : ℚ
deriving DecidableEq

/-- The scanner's mutable state: the three maps and the per-minute error flag
(`priceHistory`, `volatilityScores`, `volumes`, `hasErrorThisMinute`). -/
structure ScannerState where
  priceHistory : List (String × List PriceSample)
  volatilityScores : List (String × ℚ)
  volumes : List (String × ℚ)
  hasErrorThisMinute : Bool
deriving DecidableEq

/-- The state built by the constructor: all maps empty, no error. -/
def initialState : ScannerState :=
  { priceHistory := [], volatilityScores := [], volumes := [],
    hasErrorThisMinute := false }

/-- The method `reset`: clears all three maps and the error flag. -/
def resetScanner (st : ScannerState) : ScannerState :=
  { st with priceHistory := [], volatilityScores := [], volumes := [],
            hasErrorThisMinute := false }

/-- JS `String.prototype.endsWith`, as a suffix test on the character list. -/
def strEndsWith (s suffix : String) : Bool :=
  s.data.drop (s.data.length - suffix.data.length) = suffix.data

/-- Body of the `forEach` in `fetchTickers`: for a symbol ending in USDT,
append a `PriceSample` to its history and overwrite its volume. -/
def ingestTicker (now : Int) (st : ScannerState) (ticker : Ticker) : ScannerState :=
  if strEndsWith ticker.symbol ("USDT") then
    let hist := (mapGet st.priceHistory ticker.symbol).getD []
    { st with
      priceHistory := mapSet st.priceHistory ticker.symbol
        (hist ++ [{ price := ticker.lastPrice, timestamp := now }]),
      volumes := mapSet st.volumes ticker.symbol ticker.turnover24h }
  else st

/-- The method `fetchTickers`: on success ingest every ticker of the response;
on any failure (the `catch` branch) set the sticky error flag and change
nothing else. The method never throws to its caller. -/
def fetchTickers (st : ScannerState) (outcome : Option (List Ticker)) (now : Int) :
    ScannerState :=
  match outcome with
  | some list => list.foldl (ingestTicker now) st
  | none => { st with hasErrorThisMinute := true }

/-- The filter `p.timestamp >= cutoff` used both by `calculateVolatility`
(with `cutoff = now - 60000`) and by `cleanupOldData` (with
`cutoff = now - 120000`). -/
def windowFilter (cutoff : Int) (prices : List PriceSample) : List PriceSample :=
  prices.filter (fun p => cutoff ≤ p.timestamp)

/-- Sum of absolute consecutive differences: the `totalMovement` loop. -/
def totalMovement : List ℚ → ℚ
  | p1 :: p2 :: rest => |p2 - p1| + totalMovement (p2 :: rest)
  | _ => 0

/-- The `reduce((sum, p) => sum + p.price, 0)` accumulation. -/
def listSum (l : List ℚ) : ℚ := l.foldl (· + ·) 0

/-- `averagePrice`: sum of the window prices over their count. -/
def averagePrice (l : List ℚ) : ℚ := listSum l / l.length

/-- `volatilityScore = (totalMovement / averagePrice) * 100`. -/
def volatilityScoreOf (l : List ℚ) : ℚ := totalMovement l / averagePrice l * 100

/-- Loop body of `calculateVolatility` for one symbol's history: `none` is the
`continue` branch (fewer than two samples in the trailing 60 s window). -/
def scoreOf (now : Int) (prices : List PriceSample) : Option ℚ :=
  let relevantPrices := windowFilter (now - 60000) prices
  if relevantPrices.length < 2 then none
  else some (volatilityScoreOf (relevantPrices.map PriceSample.price))

/-- One iteration of the `calculateVolatility` loop: skip on `continue`,
otherwise insert the symbol's score. -/
def scoreStep (now : Int) (acc : List (String × ℚ)) (entry : String × List PriceSample) :
    List (String × ℚ) :=
  match scoreOf now entry.2 with
  | none => acc
  | some v => mapSet acc entry.1 v

/-- The method `calculateVolatility`: clear the score map, then walk the
price history and insert a score for every symbol whose trailing window
holds at least two samples. -/
def calculateVolatility (st : ScannerState) (now : Int) : ScannerState :=
  { st with volatilityScores := st.priceHistory.foldl (scoreStep now) [] }

/-- The `minVolume` constant: $10M minimum 24h volume. -/
def minVolume : ℚ := 10000000

/-- The filter of `findBestPerformer`: `volumes.get(symbol) >= minVolume`
(a missing volume compares as false, as `undefined >= n` does in JS). -/
def volumeOk (volumes : List (String × ℚ)) (sym : String) : Bool :=
  match mapGet volumes sym with
  | some v => minVolume ≤ v
  | none => false

/-- Volume read inside the sort comparator; the filter has already ensured
the symbol is present, so the default is never reached after it. -/
def volGet (volumes : List (String × ℚ)) (sym : String) : ℚ :=
  (mapGet volumes sym).getD 0

/-- The sort comparator of `findBestPerformer`: score descending, but a score
difference of at most `0.0001` falls through to volume descending. -/
def pairCompare (volumes : List (String × ℚ)) (a b : String × ℚ) : ℚ :=
  let scoreDiff := b.2 - a.2
  if 1 / 10000 < |scoreDiff| then scoreDiff
  else volGet volumes b.1 - volGet volumes a.1

/-- Stable insertion step for a comparator-driven sort. -/
def insertSorted {α : Type} (keep : α → α → Bool) (x : α) : List α → List α
  | [] => [x]
  | y :: ys => if keep x y then x :: y :: ys else y :: insertSorted keep x ys

/-- Stable comparator sort modelling `Array.prototype.sort`: an element goes
before another when the comparator returns a nonpositive value. -/
def sortByCompare {α : Type} (cmp : α → α → ℚ) (l : List α) : List α :=
  l.foldr (insertSorted (fun a b => cmp a b ≤ 0)) []

/-- JS `Math.round`: round half toward positive infinity. -/
def jsRound (x : ℚ) : Int := Int.floor (x + 1 / 2)

/-- The object returned by `findBestPerformer`. -/
structure PerformerResult where
  symbol : Option String
  moves : Int
  hasError : Bool
deriving DecidableEq

/-- The method `findBestPerformer`: filter the score entries by the volume
floor, sort by the comparator, and return the head (or the no-winner
result when nothing passes the floor). -/
def findBestPerformer (st : ScannerState) : PerformerResult :=
  let topPairs := sortByCompare (pairCompare st.volumes)
      (st.volatilityScores.filter (fun p => volumeOk st.volumes p.1))
  match topPairs with
  | [] => { symbol := none, moves := 0, hasError := st.hasErrorThisMinute }
  | (sym, score) :: _ =>
      { symbol := some sym, moves := jsRound (score * 100),
        hasError := st.hasErrorThisMinute }

/-- JS truthiness of `result.symbol` (`null` and the empty string are falsy). -/
def isTruthy : Option String → Bool
  | none => false
  | some s => !(s == "")

/-- The method `processMinute` of `src/server.js`: reset at second 0, fetch
then estimate at seconds below 59, and at second 59 emit the selector's
result when it has a truthy symbol and no error was recorded. Returns the
new state and the emitted event, if any. -/
def processMinute (st : ScannerState) (seconds : Nat)
    (outcome : Option (List Ticker)) (now : Int) :
    ScannerState × Option PerformerResult :=
  let st1 := if seconds = 0 then resetScanner st else st
  let st2 := if seconds < 59 then
      calculateVolatility (fetchTickers st1 outcome now) now
    else st1
  if seconds = 59 then
    let result := findBestPerformer st2
    if !result.hasError && isTruthy result.symbol then (st2, some result)
    else (st2, none)
  else (st2, none)

/-- `toFixed digits` on a nonnegative rational, as the rational the printed
string denotes. -/
def toFixedQ (digits : Nat) (x : ℚ) : ℚ :=
  (jsRound (x * 10 ^ digits) : ℚ) / 10 ^ digits

/-- The event payload emitted by `processMinute` of `src/unnamed/part_000`. -/
structure Payload where
  symbol : String
  moves : Int
  turnover : ℚ
  fundingRate : ℚ
deriving DecidableEq

/-- The method `processMinute` of `src/unnamed/part_000`: as in `server.js`,
but at second 59 a winner triggers one supplementary snapshot read
(`supp`, a second independent fetch) from which the winner's ticker is
looked up to build the payload: turnover in millions at 2 decimals and
funding rate as a percentage at 4 decimals. When the winner's symbol is
absent from the supplementary snapshot the source throws on the
`undefined` ticker and no event is emitted; that branch is modelled as
emitting nothing. -/
def processMinuteFull (st : ScannerState) (seconds : Nat)
    (outcome : Option (List Ticker)) (supp : List Ticker) (now : Int) :
    ScannerState × Option Payload :=
  let st1 := if seconds = 0 then resetScanner st else st
  let st2 := if seconds < 59 then
      calculateVolatility (fetchTickers st1 outcome now) now
    else st1
  if seconds = 59 then
    let result := findBestPerformer st2
    if !result.hasError && isTruthy result.symbol then
      match result.symbol with
      | some sym =>
        match supp.find? (fun t => t.symbol == sym) with
        | some ticker =>
            (st2, some { symbol := sym, moves := result.moves,
                         turnover := toFixedQ 2 (ticker.turnover24h / 1000000),
                         fundingRate := toFixedQ 4 (ticker.fundingRate * 100) })
        | none => (st2, none)
      | none => (st2, none)
    else (st2, none)
  else (st2, none)

/-- The method `cleanupOldData`: replace every symbol's log with the samples
of the trailing 120 seconds. -/
def cleanupOldData (st : ScannerState) (nowMs : Int) : ScannerState :=
  { st with priceHistory :=
      st.priceHistory.map (fun entry => (entry.1, windowFilter (nowMs - 120000) entry.2)) }

/-- Folding the scanner over a list of ticks `(second, fetch outcome, now)`,
keeping only the state: the scheduling loop driven by `setInterval`. -/
def runTicks (st : ScannerState) (ticks : List (Nat × Option (List Ticker) × Int)) :
    ScannerState :=
  ticks.foldl (fun a t => (processMinute a t.1 t.2.1 t.2.2).1) st

/-- States reachable from the freshly constructed scanner by the operations
that mutate state (`findBestPerformer` only reads it). -/
inductive Reachable : ScannerState → Prop
  | init : Reachable initialState
  | reset {st : ScannerState} : Reachable st → Reachable (resetScanner st)
  | fetch {st : ScannerState} (outcome : Option (List Ticker)) (now : Int) :
      Reachable st → Reachable (fetchTickers st outcome now)
  | estimate {st : ScannerState} (now : Int) :
      Reachable st → Reachable (calculateVolatility st now)
  | cleanup {st : ScannerState} (now : Int) :
      Reachable st → Reachable (cleanupOldData st now)

/-- Every symbol with a volatility score, and every symbol with a price
history entry, also has a recorded volume. -/
def volumesAligned (st : ScannerState) : Prop :=
  (∀ sym, (mapGet st.volatilityScores sym).isSome = true →
      (mapGet st.volumes sym).isSome = true)
  ∧ (∀ sym, (mapGet st.priceHistory sym).isSome = true →
      (mapGet st.volumes sym).isSome = true)

/-- Concrete three-sample state realizing the spec's worked example. -/
def exampleState : ScannerState :=
  { priceHistory := [(("AAAUSDT"), [⟨100, 1000⟩, ⟨101, 2000⟩, ⟨99, 3000⟩])],
    volatilityScores := [], volumes := [(("AAAUSDT"), 20000000)],
    hasErrorThisMinute := false }

/-- Concrete ticker used by counterexamples and witnesses. -/
def exampleTicker : Ticker :=
  { symbol := "AAAUSDT", lastPrice := 100, turnover24h := 20000000,
    fundingRate := 1 / 1000 }

/-! Lemmas about the association-list operations. -/

theorem mapGet_mapSet {α : Type} (m : List (String × α)) (k kq : String) (v : α) :
    mapGet (mapSet m k v) kq = if k = kq then some v else mapGet m kq := by
  induction m with
  | nil => simp [mapGet, mapSet]
  | cons p rest ih =>
    by_cases h : p.1 = k
    · subst h
      by_cases h2 : p.1 = kq
      · simp [mapGet, mapSet, h2]
      · simp [mapGet, mapSet, h2]
    · simp only [mapSet, if_neg h]
      by_cases h2 : p.1 = kq
      · have hk : ¬ k = kq := fun he => h (he ▸ h2)
        simp [mapGet, h2, hk]
      · simp [mapGet, h2, ih]

theorem mapGet_isSome_iff_mem {α : Type} (m : List (String × α)) (k : String) :
    (mapGet m k).isSome = true ↔ k ∈ m.map Prod.fst := by
  induction m with
  | nil => simp [mapGet]
  | cons p rest ih =>
    by_cases h : p.1 = k
    · simp [mapGet, h]
    · simp only [mapGet, if_neg h, List.map_cons, List.mem_cons]
      rw [ih]
      constructor
      · exact Or.inr
      · rintro (he | hm)
        · exact absurd he.symm h
        · exact hm

theorem mapGet_eq_none_of_not_mem {α : Type} {m : List (String × α)} {k : String}
    (h : k ∉ m.map Prod.fst) : mapGet m k = none := by
  cases hg : mapGet m k with
  | none => rfl
  | some v => exact absurd ((mapGet_isSome_iff_mem m k).mp (by rw [hg]; rfl)) h

theorem mapGet_eq_some_of_mem {α : Type} {m : List (String × α)} {k : String} {v : α}
    (hn : (m.map Prod.fst).Nodup) (hm : (k, v) ∈ m) : mapGet m k = some v := by
  induction m with
  | nil => cases hm
  | cons p rest ih =>
    rcases List.mem_cons.mp hm with he | hm2
    · rw [← he]
      simp [mapGet]
    · have hkrest : k ∈ rest.map Prod.fst := List.mem_map.mpr ⟨(k, v), hm2, rfl⟩
      have hp : ¬ p.1 = k := by
        intro hpk
        have hnot : p.1 ∉ rest.map Prod.fst := (List.nodup_cons.mp (by simpa using hn)).1
        exact hnot (hpk ▸ hkrest)
      have hn2 : (rest.map Prod.fst).Nodup := (List.nodup_cons.mp (by simpa using hn)).2
      simp [mapGet, hp, ih hn2 hm2]

theorem mapGet_map_value {α β : Type} (g : α → β) (m : List (String × α)) (k : String) :
    mapGet (m.map (fun p => (p.1, g p.2))) k = (mapGet m k).map g := by
  induction m with
  | nil => simp [mapGet]
  | cons p rest ih =>
    by_cases h : p.1 = k
    · simp [mapGet, h]
    · simp [mapGet, h, ih]

/-- Lookup after the score-building fold of `calculateVolatility`: with
pairwise distinct keys, each key's final value is the score of its own
history entry. -/
theorem mapGet_foldl_scoreStep (now : Int) (l : List (String × List PriceSample))
    (acc : List (String × ℚ)) (k : String)
    (hn : (l.map Prod.fst).Nodup)
    (hd : ∀ s ∈ l.map Prod.fst, s ∉ acc.map Prod.fst) :
    mapGet (l.foldl (scoreStep now) acc) k
      = ((mapGet l k).map (scoreOf now)).getD (mapGet acc k) := by
  induction l generalizing acc with
  | nil => simp [mapGet]
  | cons e rest ih =>
    have hn2 : (rest.map Prod.fst).Nodup := (List.nodup_cons.mp (by simpa using hn)).2
    have hhead : e.1 ∉ rest.map Prod.fst := (List.nodup_cons.mp (by simpa using hn)).1
    have hde : e.1 ∉ acc.map Prod.fst := hd e.1 (by simp)
    rw [List.foldl_cons]
    cases hf : scoreOf now e.2 with
    | none =>
      have hstep : scoreStep now acc e = acc := by simp [scoreStep, hf]
      rw [hstep, ih acc hn2 (fun s hs => hd s (by simp [hs]))]
      by_cases hk : e.1 = k
      · subst hk
        rw [mapGet_eq_none_of_not_mem hhead, mapGet_eq_none_of_not_mem hde]
        simp [mapGet, hf]
      · simp [mapGet, hk]
    | some v =>
      have hstep : scoreStep now acc e = mapSet acc e.1 v := by simp [scoreStep, hf]
      have hd2 : ∀ s ∈ rest.map Prod.fst, s ∉ (mapSet acc e.1 v).map Prod.fst := by
        intro s hs hmem
        have hsv : (mapGet (mapSet acc e.1 v) s).isSome = true :=
          (mapGet_isSome_iff_mem _ s).mpr hmem
        rw [mapGet_mapSet] at hsv
        by_cases hse : e.1 = s
        · exact hhead (hse ▸ hs)
        · rw [if_neg hse] at hsv
          exact hd s (by simp [hs]) ((mapGet_isSome_iff_mem _ s).mp hsv)
      rw [hstep, ih (mapSet acc e.1 v) hn2 hd2]
      by_cases hk : e.1 = k
      · subst hk
        rw [mapGet_eq_none_of_not_mem hhead, mapGet_mapSet, if_pos rfl]
        simp [mapGet, hf]
      · rw [mapGet_mapSet, if_neg hk]
        simp [mapGet, hk]

/-! Lemmas about the comparator sort. -/

theorem mem_insertSorted {α : Type} (keep : α → α → Bool) (x a : α) (l : List α) :
    a ∈ insertSorted keep x l ↔ a = x ∨ a ∈ l := by
  induction l with
  | nil => simp [insertSorted]
  | cons y ys ih =>
    by_cases h : keep x y
    · simp [insertSorted, h]
    · simp only [insertSorted, if_neg h, List.mem_cons, ih]
      tauto

theorem mem_sortByCompare {α : Type} (cmp : α → α → ℚ) (a : α) (l : List α) :
    a ∈ sortByCompare cmp l ↔ a ∈ l := by
  unfold sortByCompare
  induction l with
  | nil => simp
  | cons y ys ih =>
    simp only [List.foldr_cons, mem_insertSorted, List.mem_cons, ih]

/-- The error field of the selector's result is exactly the sticky flag. -/
theorem findBestPerformer_hasError (st : ScannerState) :
    (findBestPerformer st).hasError = st.hasErrorThisMinute := by
  unfold findBestPerformer
  cases sortByCompare (pairCompare st.volumes)
      (st.volatilityScores.filter (fun p => volumeOk st.volumes p.1)) with
  | nil => rfl
  | cons hd tl => rfl

/-- The volume-floor filter accepts exactly the symbols with a recorded
volume of at least `minVolume`. -/
theorem volumeOk_iff (volumes : List (String × ℚ)) (sym : String) :
    volumeOk volumes sym = true ↔ ∃ v, mapGet volumes sym = some v ∧ minVolume ≤ v := by
  unfold volumeOk
  cases h : mapGet volumes sym with
  | none => simp
  | some v => simp [decide_eq_true_eq]

/-! Lemmas about the sticky error flag. -/

theorem ingestTicker_flag (now : Int) (st : ScannerState) (t : Ticker) :
    (ingestTicker now st t).hasErrorThisMinute = st.hasErrorThisMinute := by
  unfold ingestTicker
  split <;> rfl

theorem foldl_ingest_flag (now : Int) (l : List Ticker) (st : ScannerState) :
    (l.foldl (ingestTicker now) st).hasErrorThisMinute = st.hasErrorThisMinute := by
  induction l generalizing st with
  | nil => rfl
  | cons t rest ih => rw [List.foldl_cons, ih, ingestTicker_flag]

theorem fetchTickers_flag (st : ScannerState) (outcome : Option (List Ticker)) (now : Int) :
    (fetchTickers st outcome now).hasErrorThisMinute
      = (st.hasErrorThisMinute || outcome.isNone) := by
  cases outcome with
  | none => simp [fetchTickers]
  | some l => simp [fetchTickers, foldl_ingest_flag]

theorem calculateVolatility_flag (st : ScannerState) (now : Int) :
    (calculateVolatility st now).hasErrorThisMinute = st.hasErrorThisMinute := rfl

theorem processMinute_fst (st : ScannerState) (s : Nat)
    (outcome : Option (List Ticker)) (now : Int) :
    (processMinute st s outcome now).1
      = (if s < 59 then
          calculateVolatility
            (fetchTickers (if s = 0 then resetScanner st else st) outcome now) now
         else if s = 0 then resetScanner st else st) := by
  unfold processMinute
  by_cases h59 : s = 59
  · subst h59
    norm_num
    split <;> rfl
  · simp [h59]

theorem processMinute_state_flag (st : ScannerState) (s : Nat)
    (outcome : Option (List Ticker)) (now : Int) :
    (processMinute st s outcome now).1.hasErrorThisMinute
      = ((if s = 0 then false else st.hasErrorThisMinute)
          || (decide (s < 59) && outcome.isNone)) := by
  rw [processMinute_fst]
  by_cases hlt : s < 59
  · by_cases h0 : s = 0
    · subst h0
      simp [hlt, calculateVolatility_flag, fetchTickers_flag, resetScanner]
    · simp [hlt, h0, calculateVolatility_flag, fetchTickers_flag]
  · have h0 : ¬ s = 0 := by omega
    simp [hlt, h0]

theorem runTicks_cons (st : ScannerState) (t : Nat × Option (List Ticker) × Int)
    (ticks : List (Nat × Option (List Ticker) × Int)) :
    runTicks st (t :: ticks) = runTicks (processMinute st t.1 t.2.1 t.2.2).1 ticks := rfl

theorem runTicks_flag_sticky (ticks : List (Nat × Option (List Ticker) × Int))
    (st : ScannerState) (hz : ∀ t ∈ ticks, t.1 ≠ 0)
    (h : st.hasErrorThisMinute = true) :
    (runTicks st ticks).hasErrorThisMinute = true := by
  induction ticks generalizing st with
  | nil => exact h
  | cons t rest ih =>
    rw [runTicks_cons]
    refine ih _ (fun u hu => hz u (by simp [hu])) ?_
    rw [processMinute_state_flag, if_neg (hz t (by simp)), h]
    rfl

/-- The two-element case of the comparator sort, matching what any JS
engine's sort does with two elements. -/
theorem sortByCompare_pair {α : Type} (cmp : α → α → ℚ) (x y : α) :
    sortByCompare cmp [x, y] = if cmp x y ≤ 0 then [x, y] else [y, x] := by
  by_cases h : cmp x y ≤ 0 <;> simp [sortByCompare, insertSorted, h]

/-! Preservation of `volumesAligned` by every state-mutating operation. -/

theorem mapGet_foldl_scoreStep_isSome (now : Int)
    (l : List (String × List PriceSample)) (acc : List (String × ℚ)) (k : String)
    (h : (mapGet (l.foldl (scoreStep now) acc) k).isSome = true) :
    (mapGet acc k).isSome = true ∨ k ∈ l.map Prod.fst := by
  induction l generalizing acc with
  | nil => exact Or.inl h
  | cons e rest ih =>
    rw [List.foldl_cons] at h
    rcases ih _ h with hacc | hmem
    · cases hf : scoreOf now e.2 with
      | none =>
        rw [show scoreStep now acc e = acc by simp [scoreStep, hf]] at hacc
        exact Or.inl hacc
      | some v =>
        rw [show scoreStep now acc e = mapSet acc e.1 v by simp [scoreStep, hf]] at hacc
        rw [mapGet_mapSet] at hacc
        by_cases he : e.1 = k
        · exact Or.inr (by simp [← he])
        · rw [if_neg he] at hacc
          exact Or.inl hacc
    · exact Or.inr (by simp [hmem])

theorem ingestTicker_aligned (now : Int) (t : Ticker) (st : ScannerState)
    (h : volumesAligned st) : volumesAligned (ingestTicker now st t) := by
  unfold ingestTicker
  split
  · constructor
    · intro sym hs
      dsimp only at hs ⊢
      rw [mapGet_mapSet]
      by_cases he : t.symbol = sym
      · simp [he]
      · rw [if_neg he]
        exact h.1 sym hs
    · intro sym hs
      dsimp only at hs ⊢
      rw [mapGet_mapSet] at hs
      rw [mapGet_mapSet]
      by_cases he : t.symbol = sym
      · simp [he]
      · rw [if_neg he] at hs
        rw [if_neg he]
        exact h.2 sym hs
  · exact h

theorem foldl_ingest_aligned (now : Int) (l : List Ticker) (st : ScannerState)
    (h : volumesAligned st) : volumesAligned (l.foldl (ingestTicker now) st) := by
  induction l generalizing st with
  | nil => exact h
  | cons t rest ih => exact ih _ (ingestTicker_aligned now t st h)

theorem reachable_aligned (st : ScannerState) (h : Reachable st) :
    volumesAligned st := by
  induction h with
  | init =>
    constructor <;> intro sym hs <;> simp [initialState, mapGet] at hs
  | reset _ ih =>
    constructor <;> intro sym hs <;> simp [resetScanner, mapGet] at hs
  | fetch outcome now _ ih =>
    cases outcome with
    | none => exact ih
    | some l => exact foldl_ingest_aligned now l _ ih
  | estimate now _ ih =>
    refine ⟨?_, ih.2⟩
    intro sym hs
    dsimp only [calculateVolatility] at hs
    rcases mapGet_foldl_scoreStep_isSome now _ [] sym hs with hacc | hmem
    · simp [mapGet] at hacc
    · exact ih.2 sym ((mapGet_isSome_iff_mem _ sym).mpr hmem)
  | cleanup now _ ih =>
    refine ⟨ih.1, ?_⟩
    intro sym hs
    dsimp only [cleanupOldData] at hs
    rw [mapGet_map_value] at hs
    exact ih.2 sym (by simpa using hs)

/-! Claim theorems. -/

/-- C1: after `calculateVolatility` runs, the score map holds exactly the
symbols whose trailing 60-second window contains at least two samples, each
mapped to `(sum of absolute consecutive differences / mean price) * 100`
(`scoreOf`); the previous score map was discarded first (the result does not
depend on it); and on the spec's worked example with window prices
`[100, 101, 99]` the score is `3` and the selector encodes it as
`moves = 300`. -/
theorem calculateVolatility_window_scores (st : ScannerState) (now : Int)
    (hn : (st.priceHistory.map Prod.fst).Nodup) :
    (∀ sym, mapGet (calculateVolatility st now).volatilityScores sym
        = (mapGet st.priceHistory sym).bind (scoreOf now))
    ∧ (calculateVolatility st now).volatilityScores
        = (calculateVolatility { st with volatilityScores := [] } now).volatilityScores
    ∧ mapGet (calculateVolatility exampleState 60000).volatilityScores ("AAAUSDT")
        = some 3
    ∧ (findBestPerformer (calculateVolatility exampleState 60000)).moves = 300 := by
  refine ⟨?_, rfl, ?_, ?_⟩
  · intro sym
    dsimp only [calculateVolatility]
    rw [mapGet_foldl_scoreStep now st.priceHistory [] sym hn (by simp)]
    cases h : mapGet st.priceHistory sym <;> simp [mapGet]
  · norm_num [exampleState, calculateVolatility, scoreStep, scoreOf, windowFilter,
      totalMovement, listSum, averagePrice, volatilityScoreOf, mapGet, mapSet]
  · norm_num [exampleState, calculateVolatility, scoreStep, scoreOf, windowFilter,
      totalMovement, listSum, averagePrice, volatilityScoreOf, mapGet, mapSet,
      findBestPerformer, sortByCompare, insertSorted, pairCompare, volumeOk, volGet,
      minVolume, jsRound, List.filter]

/-- Witness for C1: the characterization applied to the concrete example
state, whose history keys are pairwise distinct. -/
theorem calculateVolatility_window_scores_app :
    (exampleState.priceHistory.map Prod.fst).Nodup
    ∧ mapGet (calculateVolatility exampleState 60000).volatilityScores ("AAAUSDT")
        = (mapGet exampleState.priceHistory ("AAAUSDT")).bind (scoreOf 60000) :=
  ⟨by simp [exampleState],
    (calculateVolatility_window_scores exampleState 60000 (by simp [exampleState])).1
      ("AAAUSDT")⟩

/-- Concrete state where the strictly highest scorer misses the volume floor. -/
def lowVolState : ScannerState :=
  { priceHistory := [],
    volatilityScores := [(("AAAUSDT"), 50), (("BBBUSDT"), 1)],
    volumes := [(("AAAUSDT"), 5), (("BBBUSDT"), 20000000)],
    hasErrorThisMinute := false }

/-- C2: `findBestPerformer` never crowns a symbol whose recorded volume is
below the `minVolume` floor (so a below-floor symbol is excluded even with
the strictly highest score); when no scored symbol passes the floor it
returns the no-winner result with absent symbol and `moves = 0` instead of
an error; and a winner's `moves` is `round(score * 100)` of that winner's
recorded score. -/
theorem findBestPerformer_volume_floor (st : ScannerState)
    (hn : (st.volatilityScores.map Prod.fst).Nodup) :
    (∀ s : String, (findBestPerformer st).symbol = some s →
        ∃ v, mapGet st.volumes s = some v ∧ minVolume ≤ v
          ∧ ∃ q, mapGet st.volatilityScores s = some q
              ∧ (findBestPerformer st).moves = jsRound (q * 100))
    ∧ ((∀ p ∈ st.volatilityScores, volumeOk st.volumes p.1 = false) →
        findBestPerformer st
          = { symbol := none, moves := 0, hasError := st.hasErrorThisMinute }) := by
  constructor
  · intro s hs
    rcases hS : sortByCompare (pairCompare st.volumes)
        (st.volatilityScores.filter (fun p => volumeOk st.volumes p.1))
      with _ | ⟨⟨sym, q⟩, tl⟩
    · exfalso
      have : (findBestPerformer st).symbol = none := by
        simp only [findBestPerformer]
        rw [hS]
      rw [hs] at this
      cases this
    · have hsym : (findBestPerformer st).symbol = some sym := by
        simp only [findBestPerformer]
        rw [hS]
      have hmoves : (findBestPerformer st).moves = jsRound (q * 100) := by
        simp only [findBestPerformer]
        rw [hS]
      have hmem : (sym, q) ∈ st.volatilityScores.filter
          (fun p => volumeOk st.volumes p.1) := by
        rw [← mem_sortByCompare (pairCompare st.volumes), hS]
        exact List.mem_cons_self _ _
      have hfil := List.mem_filter.mp hmem
      have hok : volumeOk st.volumes sym = true := by simpa using hfil.2
      obtain ⟨v, hv, hvf⟩ := (volumeOk_iff _ _).mp hok
      have hss : s = sym := by
        rw [hs] at hsym
        exact Option.some_inj.mp hsym
      subst hss
      exact ⟨v, hv, hvf, q, mapGet_eq_some_of_mem hn hfil.1, hmoves⟩
  · intro hall
    have hfil : st.volatilityScores.filter (fun p => volumeOk st.volumes p.1) = [] :=
      List.filter_eq_nil_iff.mpr (by intro a ha; simp [hall a ha])
    simp only [findBestPerformer]
    rw [hfil]
    rfl

/-- On `lowVolState` the selector crowns the low scorer with enough volume. -/
theorem lowVolState_winner : (findBestPerformer lowVolState).symbol = some ("BBBUSDT") := by
  have hokA : volumeOk lowVolState.volumes ("AAAUSDT") = false := by
    unfold volumeOk
    rw [show mapGet lowVolState.volumes ("AAAUSDT") = some 5 by simp [lowVolState, mapGet]]
    norm_num [minVolume]
  have hokB : volumeOk lowVolState.volumes ("BBBUSDT") = true := by
    unfold volumeOk
    rw [show mapGet lowVolState.volumes ("BBBUSDT") = some 20000000 by
      simp [lowVolState, mapGet]]
    norm_num [minVolume]
  have hfil : lowVolState.volatilityScores.filter
      (fun p => volumeOk lowVolState.volumes p.1) = [(("BBBUSDT"), 1)] := by
    rw [show lowVolState.volatilityScores
        = [(("AAAUSDT"), (50 : ℚ)), (("BBBUSDT"), 1)] from rfl]
    simp only [List.filter_cons, List.filter_nil, hokA, hokB]
    simp
  simp only [findBestPerformer]
  rw [hfil]
  rfl

/-- Witness for C2: on `lowVolState` the winner is the low-scoring symbol
with sufficient volume, not the top scorer below the floor. -/
theorem findBestPerformer_volume_floor_app :
    ∃ v, mapGet lowVolState.volumes ("BBBUSDT") = some v ∧ minVolume ≤ v
      ∧ ∃ q, mapGet lowVolState.volatilityScores ("BBBUSDT") = some q
          ∧ (findBestPerformer lowVolState).moves = jsRound (q * 100) :=
  (findBestPerformer_volume_floor lowVolState (by simp [lowVolState])).1 ("BBBUSDT")
    lowVolState_winner

/-- C3: for two symbols that both pass the volume floor, whose scores differ
by at most `0.0001` and whose volumes differ, the selector picks the one
with the larger volume — in either iteration order of the score map. -/
theorem findBestPerformer_tie_prefers_volume (s1 s2 : String) (q1 q2 v1 v2 : ℚ)
    (hist : List (String × List PriceSample)) (volumes : List (String × ℚ)) (err : Bool)
    (hv1 : mapGet volumes s1 = some v1) (hv2 : mapGet volumes s2 = some v2)
    (hf1 : minVolume ≤ v1) (hf2 : minVolume ≤ v2)
    (hq : |q1 - q2| ≤ 1 / 10000) (hvv : v2 < v1) :
    (findBestPerformer ⟨hist, [(s1, q1), (s2, q2)], volumes, err⟩).symbol = some s1
    ∧ (findBestPerformer ⟨hist, [(s2, q2), (s1, q1)], volumes, err⟩).symbol = some s1 := by
  have hok1 : volumeOk volumes s1 = true := (volumeOk_iff _ _).mpr ⟨v1, hv1, hf1⟩
  have hok2 : volumeOk volumes s2 = true := (volumeOk_iff _ _).mpr ⟨v2, hv2, hf2⟩
  have hq21 : ¬ (1 / 10000 < |q2 - q1|) := by
    rw [abs_sub_comm]
    exact not_lt.mpr hq
  have hq12 : ¬ (1 / 10000 < |q1 - q2|) := not_lt.mpr hq
  have hc12 : pairCompare volumes (s1, q1) (s2, q2) ≤ 0 := by
    simp only [pairCompare, volGet, hv1, hv2, Option.getD_some]
    rw [if_neg hq21]
    linarith
  have hc21 : ¬ (pairCompare volumes (s2, q2) (s1, q1) ≤ 0) := by
    simp only [pairCompare, volGet, hv1, hv2, Option.getD_some]
    rw [if_neg hq12]
    intro hle
    have : (0 : ℚ) < v1 - v2 := by linarith
    linarith
  constructor
  · have hfil : List.filter (fun p => volumeOk volumes p.1) [(s1, q1), (s2, q2)]
        = [(s1, q1), (s2, q2)] := by
      simp only [List.filter_cons, List.filter_nil, hok1, hok2]
      simp
    simp only [findBestPerformer]
    rw [hfil, sortByCompare_pair, if_pos hc12]
  · have hfil : List.filter (fun p => volumeOk volumes p.1) [(s2, q2), (s1, q1)]
        = [(s2, q2), (s1, q1)] := by
      simp only [List.filter_cons, List.filter_nil, hok1, hok2]
      simp
    simp only [findBestPerformer]
    rw [hfil, sortByCompare_pair, if_neg hc21]

/-- Witness for C3: concrete near-tied scores with distinct volumes, both
orders crowning the higher-volume symbol. -/
theorem findBestPerformer_tie_prefers_volume_app :
    (findBestPerformer ⟨[], [(("AAAUSDT"), 2), (("BBBUSDT"), 2 + 1 / 20000)],
        [(("AAAUSDT"), 30000000), (("BBBUSDT"), 20000000)], false⟩).symbol
      = some ("AAAUSDT")
    ∧ (findBestPerformer ⟨[], [(("BBBUSDT"), 2 + 1 / 20000), (("AAAUSDT"), 2)],
        [(("AAAUSDT"), 30000000), (("BBBUSDT"), 20000000)], false⟩).symbol
      = some ("AAAUSDT") :=
  findBestPerformer_tie_prefers_volume ("AAAUSDT") ("BBBUSDT") 2 (2 + 1 / 20000)
    30000000 20000000 [] [(("AAAUSDT"), 30000000), (("BBBUSDT"), 20000000)] false
    (by simp [mapGet]) (by simp [mapGet]) (by norm_num [minVolume])
    (by norm_num [minVolume]) (by norm_num [abs_le]) (by norm_num)

/-- C4: when the sticky error flag is set, the tick at second 59 publishes
nothing, regardless of what the selector would have returned. -/
theorem error_suppresses_publication (st : ScannerState)
    (outcome : Option (List Ticker)) (now : Int)
    (h : st.hasErrorThisMinute = true) :
    (processMinute st 59 outcome now).2 = none := by
  simp [processMinute, findBestPerformer_hasError, h]

/-- Errored state that nevertheless has a rankable winner. -/
def erroredState : ScannerState :=
  { calculateVolatility exampleState 60000 with hasErrorThisMinute := true }

/-- Witness for C4: a minute with a valid winner but a set error flag emits
no event at second 59. -/
theorem error_suppresses_publication_app :
    erroredState.hasErrorThisMinute = true
    ∧ (processMinute erroredState 59 none 0).2 = none :=
  ⟨rfl, error_suppresses_publication erroredState none 0 rfl⟩

/-- Counterexample for C5: `reset` also clears the accumulated price
samples, contradicting the claim that they survive reset. -/
theorem reset_keeps_history_cex :
    ¬ ((resetScanner exampleState).priceHistory = exampleState.priceHistory) := by
  simp [resetScanner, exampleState]

/-- C5 (amended): `reset` clears the score map, the volumes map and the
error flag, and it also clears the whole price history; no samples survive
it. -/
theorem reset_clears_all_state (st : ScannerState) :
    resetScanner st
      = { priceHistory := [], volatilityScores := [], volumes := [],
          hasErrorThisMinute := false } := rfl

/-- Counterexample for C6: the tick at second 0 does not perform only the
reset — it also fetches (appending a price sample) and re-estimates. -/
theorem second_zero_fetches_cex :
    ¬ (processMinute initialState 0 (some [exampleTicker]) 1000
        = (resetScanner initialState, none)) := by
  intro h
  have h1 : (processMinute initialState 0 (some [exampleTicker]) 1000).1.priceHistory
      = [(("AAAUSDT"), [{ price := 100, timestamp := 1000 }])] := by
    rw [processMinute_fst]
    norm_num [initialState, resetScanner, fetchTickers, ingestTicker, exampleTicker,
      strEndsWith, mapGet, mapSet, calculateVolatility]
  rw [h] at h1
  simp [resetScanner] at h1

/-- C6 (amended): the Fetcher and then the Estimator run exactly when the
second is in 0–58 (at second 0 the reset happens first, then fetch and
estimation); the tick at second 59 performs only finalization; a tick with
any other second value does nothing. -/
theorem processMinute_schedule (st : ScannerState) (s : Nat)
    (outcome : Option (List Ticker)) (now : Int) :
    processMinute st s outcome now =
      (if s = 59 then
        (st,
         if (!(findBestPerformer st).hasError && isTruthy (findBestPerformer st).symbol)
         then some (findBestPerformer st) else none)
       else if s < 59 then
        (calculateVolatility
          (fetchTickers (if s = 0 then resetScanner st else st) outcome now) now,
         none)
       else (st, none)) := by
  unfold processMinute
  by_cases h59 : s = 59
  · subst h59
    norm_num
    split <;> rfl
  · by_cases hlt : s < 59
    · simp [h59, hlt]
    · have h0 : ¬ s = 0 := by omega
      simp [h59, hlt, h0]

/-- C7: at second 59 with a winner and a clear error flag, the scanner uses
one supplementary snapshot (`supp`) and the emitted payload carries, besides
symbol and the integer `moves`, the winner's turnover divided by one million
at 2 decimals and its funding rate times 100 at 4 decimals, both read from
that supplementary snapshot. -/
theorem finalize_supplementary_payload (st : ScannerState)
    (outcome : Option (List Ticker)) (supp : List Ticker) (now : Int)
    (sym : String) (tk : Ticker)
    (hwin : (findBestPerformer st).symbol = some sym)
    (hs : ¬ sym = "")
    (herr : st.hasErrorThisMinute = false)
    (hfind : supp.find? (fun t => t.symbol == sym) = some tk) :
    (processMinuteFull st 59 outcome supp now).2 =
      some { symbol := sym, moves := (findBestPerformer st).moves,
             turnover := toFixedQ 2 (tk.turnover24h / 1000000),
             fundingRate := toFixedQ 4 (tk.fundingRate * 100) } := by
  have htr : isTruthy (findBestPerformer st).symbol = true := by
    rw [hwin]
    simp [isTruthy, hs]
  unfold processMinuteFull
  norm_num [findBestPerformer_hasError, herr, htr]
  rw [hwin]
  simp only [hfind]

/-- Ticker returned by the supplementary snapshot in the C7 witness. -/
def suppTicker : Ticker :=
  { symbol := "AAAUSDT", lastPrice := 99, turnover24h := 25000000,
    fundingRate := 1 / 1000 }

/-- The example state after estimation: it has a computed winner. -/
theorem exampleState_winner :
    (findBestPerformer (calculateVolatility exampleState 60000)).symbol
      = some ("AAAUSDT") := by
  norm_num [exampleState, calculateVolatility, scoreStep, scoreOf, windowFilter,
    totalMovement, listSum, averagePrice, volatilityScoreOf, mapGet, mapSet,
    findBestPerformer, sortByCompare, insertSorted, pairCompare, volumeOk, volGet,
    minVolume, List.filter]

/-- Witness for C7: the payload emitted for the worked example, with the
supplementary snapshot providing turnover and funding rate. -/
theorem finalize_supplementary_payload_app :
    (findBestPerformer (calculateVolatility exampleState 60000)).symbol
        = some ("AAAUSDT")
    ∧ (processMinuteFull (calculateVolatility exampleState 60000) 59 none
        [suppTicker] 61000).2
      = some { symbol := ("AAAUSDT"),
               moves := (findBestPerformer (calculateVolatility exampleState 60000)).moves,
               turnover := toFixedQ 2 (suppTicker.turnover24h / 1000000),
               fundingRate := toFixedQ 4 (suppTicker.fundingRate * 100) } :=
  ⟨exampleState_winner,
    finalize_supplementary_payload (calculateVolatility exampleState 60000) none
      [suppTicker] 61000 ("AAAUSDT") suppTicker exampleState_winner (by simp) rfl
      (by simp [List.find?, suppTicker])⟩

/-- C8: a failed fetch sets the sticky flag; a successful fetch leaves it
unchanged (so the flag after any fetch is the old flag or-ed with failure);
only `reset` clears it; the flag after a whole tick is the old flag
(cleared only at second 0) or-ed with a failure of that tick's fetch (which
happens only at seconds below 59); and over any run of ticks avoiding
second 0, a set flag stays set — no fetch failure ever escapes a tick or
stops the loop, which is total by construction. -/
theorem fetch_error_sticky (st : ScannerState) (outcome : Option (List Ticker))
    (now : Int) (s : Nat) (ticks : List (Nat × Option (List Ticker) × Int)) :
    (fetchTickers st none now).hasErrorThisMinute = true
    ∧ (fetchTickers st outcome now).hasErrorThisMinute
        = (st.hasErrorThisMinute || outcome.isNone)
    ∧ (resetScanner st).hasErrorThisMinute = false
    ∧ (processMinute st s outcome now).1.hasErrorThisMinute
        = ((if s = 0 then false else st.hasErrorThisMinute)
            || (decide (s < 59) && outcome.isNone))
    ∧ ((∀ t ∈ ticks, t.1 ≠ 0) → st.hasErrorThisMinute = true →
        (runTicks st ticks).hasErrorThisMinute = true) :=
  ⟨by simp [fetchTickers], fetchTickers_flag st outcome now, rfl,
    processMinute_state_flag st s outcome now,
    fun hz h => runTicks_flag_sticky ticks st hz h⟩

/-- Witness for C8: a flag set by a failing fetch at second 5 survives the
rest of the minute, including the finalize tick. -/
theorem fetch_error_sticky_app :
    (∀ t ∈ [((5 : Nat), (none : Option (List Ticker)), (5000 : Int)),
            (30, none, 30000), (59, none, 59000)], t.1 ≠ 0)
    ∧ (runTicks ⟨[], [], [], true⟩
        [((5 : Nat), (none : Option (List Ticker)), (5000 : Int)),
         (30, none, 30000), (59, none, 59000)]).hasErrorThisMinute = true :=
  ⟨by decide,
    (fetch_error_sticky ⟨[], [], [], true⟩ none 0 5
        [((5 : Nat), (none : Option (List Ticker)), (5000 : Int)),
         (30, none, 30000), (59, none, 59000)]).2.2.2.2 (by decide) rfl⟩

/-- C9: `cleanupOldData` replaces each symbol's log with exactly the samples
of the trailing 120 seconds; a sample aged exactly 90 seconds is kept while
being excluded from the 60-second scoring window; and no sample inside the
active 60-second window is ever pruned. -/
theorem cleanup_retains_120s_window (st : ScannerState) (now : Int) (sym : String)
    (prices : List PriceSample)
    (h : mapGet st.priceHistory sym = some prices) :
    mapGet (cleanupOldData st now).priceHistory sym
        = some (windowFilter (now - 120000) prices)
    ∧ (∀ p : PriceSample, p ∈ windowFilter (now - 120000) prices
        ↔ (p ∈ prices ∧ now - 120000 ≤ p.timestamp))
    ∧ (∀ p : PriceSample, p ∈ prices → p.timestamp = now - 90000 →
        (p ∈ windowFilter (now - 120000) prices
          ∧ p ∉ windowFilter (now - 60000) prices))
    ∧ (∀ p : PriceSample, p ∈ windowFilter (now - 60000) prices →
        p ∈ windowFilter (now - 120000) prices) := by
  refine ⟨?_, ?_, ?_, ?_⟩
  · dsimp only [cleanupOldData]
    rw [mapGet_map_value, h]
    rfl
  · intro p
    unfold windowFilter
    simp [List.mem_filter]
  · intro p hp ht
    constructor
    · unfold windowFilter
      refine List.mem_filter.mpr ⟨hp, ?_⟩
      simp [ht]
      omega
    · unfold windowFilter
      intro hmem
      have h2 := (List.mem_filter.mp hmem).2
      simp [ht] at h2
      omega
  · intro p hp
    unfold windowFilter at hp ⊢
    have h1 := List.mem_filter.mp hp
    refine List.mem_filter.mpr ⟨h1.1, ?_⟩
    have h2 := h1.2
    simp at h2 ⊢
    omega

/-- Sample log used by the C9 witness: ages 140 s, 90 s and 5 s at the
reference time 200000. -/
def agedSamples : List PriceSample := [⟨100, 60000⟩, ⟨101, 110000⟩, ⟨99, 195000⟩]

/-- History store used by the C9 witness. -/
def agedState : ScannerState := ⟨[(("AAAUSDT"), agedSamples)], [], [], false⟩

/-- Witness for C9: pruning the concrete aged history at time 200000. -/
theorem cleanup_retains_120s_window_app :
    mapGet agedState.priceHistory ("AAAUSDT") = some agedSamples
    ∧ mapGet (cleanupOldData agedState 200000).priceHistory ("AAAUSDT")
        = some (windowFilter ((200000 : Int) - 120000) agedSamples) :=
  ⟨by simp [agedState, mapGet],
    (cleanup_retains_120s_window agedState 200000 ("AAAUSDT") agedSamples
      (by simp [agedState, mapGet])).1⟩

/-- C10: in every reachable scanner state, every symbol carrying a
volatility score also has a recorded volume, so the selector's volume-floor
test never reads a missing volume; the invariant is preserved by
`fetchTickers` (which records price and volume together), `resetScanner`
(which clears all maps together), `calculateVolatility` (which scores only
symbols present in the history) and `cleanupOldData`. -/
theorem reachable_scores_have_volumes (st : ScannerState) (h : Reachable st) :
    ∀ sym, (mapGet st.volatilityScores sym).isSome = true →
      (mapGet st.volumes sym).isSome = true :=
  fun sym hs => (reachable_aligned st h).1 sym hs

/-- Second snapshot ticker for the C10 witness. -/
def exampleTicker2 : Ticker :=
  { symbol := "AAAUSDT", lastPrice := 101, turnover24h := 21000000,
    fundingRate := 1 / 1000 }

/-- A reachable state with a nonempty score map: two fetches then an
estimation. -/
def reachedState : ScannerState :=
  calculateVolatility
    (fetchTickers (fetchTickers initialState (some [exampleTicker]) 1000)
      (some [exampleTicker2]) 2000) 60000

/-- Witness for C10: the invariant evaluated on a concrete reachable state
whose score map is nonempty. -/
theorem reachable_scores_have_volumes_app :
    (mapGet reachedState.volatilityScores ("AAAUSDT")).isSome = true
    ∧ (mapGet reachedState.volumes ("AAAUSDT")).isSome = true := by
  have hreach : Reachable reachedState :=
    Reachable.estimate 60000
      (Reachable.fetch (some [exampleTicker2]) 2000
        (Reachable.fetch (some [exampleTicker]) 1000 Reachable.init))
  have hscore : (mapGet reachedState.volatilityScores ("AAAUSDT")).isSome = true := by
    norm_num [reachedState, initialState, fetchTickers, ingestTicker, exampleTicker,
      exampleTicker2, strEndsWith, mapGet, mapSet, calculateVolatility, scoreStep,
      scoreOf, windowFilter, totalMovement, listSum, averagePrice, volatilityScoreOf]
  exact ⟨hscore, reachable_scores_have_volumes reachedState hreach ("AAAUSDT") hscore⟩

end VercelScanner
